import Mathlib

/-!
A Lean model of the crudadmin authenticated-session and audit-event core.

The definitions below are a shallow embedding of the repository's code:

* `event/service.py` — `CustomJSONEncoder` / `_serialize_dict`
  (`serializeVal`, `serialize_dict`), `log_event`, `create_audit_log`,
  `_compute_changes` (`compute_changes`), `get_security_alerts`,
  `cleanup_old_logs`.
* `admin_interface/admin_site.py` — the login handler `login_page_inner`.
* `session/models.py` — the `AdminSession` record.

Python values stored in JSON columns are modelled by the inductive `PyVal`;
Python dictionaries by association lists (`PyDict`).  Python lists and
nested dictionaries inside a value are modelled by the cons-encoded
constructors `listCons`/`dictCons` of `PyVal`.  Machine-level details
(timestamps) are modelled as integers counting seconds.  Awaited calls to
the database layer (the external CRUD helper) are modelled as explicit
`Except` parameters.  The session manager and token service, whose
contracts the specification states, are modelled from the specification's
words where noted.
-/

/-- A Python value as it may appear in a `details` / state dictionary:
JSON-native scalars, `datetime` (carrying its ISO-8601 rendering),
`Decimal` (carrying its string rendering), `Enum` (carrying its `.value`),
and cons-encoded lists and dictionaries. -/
inductive PyVal where
  | none : PyVal
  | bool : Bool → PyVal
  | int : Int → PyVal
  | str : String → PyVal
  | datetime : String → PyVal
  | decimal : String → PyVal
  | enum : PyVal → PyVal
  | listNil : PyVal
  | listCons : PyVal → PyVal → PyVal
  | dictNil : PyVal
  | dictCons : String → PyVal → PyVal → PyVal
deriving DecidableEq, Repr

/-- A Python dictionary with string keys, as an association list. -/
abbrev PyDict := List (String × PyVal)

/-- Python `d[k]` lookup returning `Option`: the first binding of `k`. -/
def dictGet : PyDict → String → Option PyVal
  | [], _ => Option.none
  | (k, v) :: rest, key => if k = key then some v else dictGet rest key

/-- Python `d.get(k)`: `None` when the key is absent. -/
def pyGet (d : PyDict) (k : String) : PyVal :=
  (dictGet d k).getD PyVal.none

/-- Python truthiness of an optional dictionary: `None` and `{}` are falsy. -/
def isFalsyDict : Option PyDict → Bool
  | Option.none => true
  | some [] => true
  | some (_ :: _) => false

/-- `CustomJSONEncoder` of `event/service.py`, composed with the JSON
round-trip of `_serialize_dict`: `datetime` becomes its ISO-8601 string,
`Decimal` becomes its string, `Enum` becomes its (recursively encoded)
value, containers are encoded elementwise, scalars are unchanged. -/
def serializeVal : PyVal → PyVal
  | .none => .none
  | .bool b => .bool b
  | .int i => .int i
  | .str s => .str s
  | .datetime iso => .str iso
  | .decimal s => .str s
  | .enum v => serializeVal v
  | .listNil => .listNil
  | .listCons h t => .listCons (serializeVal h) (serializeVal t)
  | .dictNil => .dictNil
  | .dictCons k v r => .dictCons k (serializeVal v) (serializeVal r)

/-- `EventService._serialize_dict`: `None` and `{}` give `{}`, otherwise the
dictionary is passed through the JSON encoder (`serializeVal` valuewise). -/
def serialize_dict (data : Option PyDict) : PyDict :=
  if isFalsyDict data then []
  else (data.getD []).map (fun p => (p.1, serializeVal p.2))

/-- Event types, as enumerated by the event schemas and used in
`event/service.py` and the admin routes. -/
inductive EventType where
  | LOGIN : EventType
  | LOGOUT : EventType
  | FAILED_LOGIN : EventType
  | CREATE : EventType
  | UPDATE : EventType
  | DELETE : EventType
deriving DecidableEq, Repr

/-- Event statuses, as enumerated by the event schemas. -/
inductive EventStatus where
  | SUCCESS : EventStatus
  | FAILURE : EventStatus
deriving DecidableEq, Repr

/-- The client half of a FastAPI `Request`: `request.client` may be absent. -/
structure ClientInfo where
  host : String
deriving DecidableEq, Repr

/-- The part of a FastAPI `Request` read by the code under study. -/
structure RequestCtx where
  client : Option ClientInfo
  headers : List (String × String)
deriving DecidableEq, Repr

/-- `request.headers.get(k, default)`. -/
def headerGet : List (String × String) → String → String → String
  | [], _, dflt => dflt
  | (k, v) :: rest, key, dflt => if k = key then v else headerGet rest key dflt

/-- `AdminEventLogCreate`: the payload handed to the CRUD helper by
`log_event`. -/
structure AdminEventLogCreate where
  event_type : EventType
  status : EventStatus
  user_id : Int
  session_id : String
  ip_address : String
  user_agent : String
  resource_type : Option String
  resource_id : Option String
  details : PyDict
deriving DecidableEq, Repr

/-- A persisted `admin_event_log` row (`event/models.py`). -/
structure AdminEventLogRow where
  id : Int
  timestamp : Int
  event_type : EventType
  status : EventStatus
  user_id : Int
  session_id : String
  ip_address : String
  user_agent : String
  resource_type : Option String
  resource_id : Option String
  details : PyDict
deriving DecidableEq, Repr

/-- A persisted `admin_audit_log` row (`event/models.py`). -/
structure AdminAuditLogRow where
  id : Int
  event_id : Int
  timestamp : Int
  resource_type : String
  resource_id : String
  action : String
  previous_state : PyDict
  new_state : PyDict
  changes : PyDict
  audit_metadata : PyDict
deriving DecidableEq, Repr

/-- A database-layer failure, carrying its message. -/
structure DBError where
  message : String
deriving DecidableEq, Repr

/-- The `AdminEventLogCreate(...)` construction inside `log_event`:
`ip_address` is `request.client.host` when a client is known, otherwise
`"unknown"`; `user_agent` is the `user-agent` header with default `""`;
`details` is serialized by `_serialize_dict`. -/
def event_payload (event_type : EventType) (status : EventStatus) (user_id : Int)
    (session_id : String) (request : RequestCtx)
    (resource_type resource_id : Option String)
    (details : Option PyDict) : AdminEventLogCreate :=
  { event_type := event_type
    status := status
    user_id := user_id
    session_id := session_id
    ip_address :=
      match request.client with
      | some c => c.host
      | Option.none => "unknown"
    user_agent := headerGet request.headers "user-agent" ""
    resource_type := resource_type
    resource_id := resource_id
    details := serialize_dict details }

/-- `EventService.log_event`: builds the event payload, persists it through
the CRUD helper (`create`), commits, and returns the created row; any
failure raised while persisting or committing is logged and re-raised —
modelled by propagating the `Except.error`. -/
def log_event (create : AdminEventLogCreate → Except DBError AdminEventLogRow)
    (commit : Except DBError Unit)
    (event_type : EventType) (status : EventStatus) (user_id : Int)
    (session_id : String) (request : RequestCtx)
    (resource_type resource_id : Option String)
    (details : Option PyDict) : Except DBError AdminEventLogRow :=
  match create (event_payload event_type status user_id session_id request
      resource_type resource_id details) with
  | Except.error e => Except.error e
  | Except.ok result =>
    match commit with
    | Except.error e => Except.error e
    | Except.ok _ => Except.ok result

/-- The union `set(previous_state.keys()) | set(new_state.keys())` of
`_compute_changes`, as a duplicate-free key list. -/
def allKeys (p n : PyDict) : List String :=
  (p.map Prod.fst ++ n.map Prod.fst).dedup

/-- The inner dictionary `{"old": old_value, "new": new_value}` stored by
`_compute_changes` for a changed key. -/
def changeEntry (old_value new_value : PyVal) : PyVal :=
  PyVal.dictCons "old" old_value (PyVal.dictCons "new" new_value PyVal.dictNil)

/-- `EventService._compute_changes`: returns `{}` when either state is
falsy (`None` or `{}`); otherwise, for every key of either state whose
`.get` values differ, stores `{"old": old_value, "new": new_value}`. -/
def compute_changes (previous_state new_state : Option PyDict) : PyDict :=
  if isFalsyDict previous_state || isFalsyDict new_state then []
  else
    let p := previous_state.getD []
    let n := new_state.getD []
    (allKeys p n).filterMap (fun key =>
      let old_value := pyGet p key
      let new_value := pyGet n key
      if old_value ≠ new_value then some (key, changeEntry old_value new_value)
      else Option.none)

/-- `AdminAuditLogCreate`: the payload handed to the CRUD helper by
`create_audit_log` — all three state blobs and the metadata serialized,
`changes` computed by `_compute_changes`. -/
structure AdminAuditLogCreate where
  event_id : Int
  resource_type : String
  resource_id : String
  action : String
  previous_state : PyDict
  new_state : PyDict
  changes : PyDict
  metadata : PyDict
deriving DecidableEq, Repr

/-- The `AdminAuditLogCreate(...)` construction inside `create_audit_log`. -/
def audit_payload (event_id : Int) (resource_type resource_id action : String)
    (previous_state new_state metadata : Option PyDict) : AdminAuditLogCreate :=
  { event_id := event_id
    resource_type := resource_type
    resource_id := resource_id
    action := action
    previous_state := serialize_dict previous_state
    new_state := serialize_dict new_state
    changes := serialize_dict (some (compute_changes previous_state new_state))
    metadata := serialize_dict metadata }

/-- `EventService.create_audit_log`: builds the audit payload, persists it
through the CRUD helper, and returns the created row; failures are logged
and re-raised. -/
def create_audit_log (create : AdminAuditLogCreate → Except DBError AdminAuditLogRow)
    (event_id : Int) (resource_type resource_id action : String)
    (previous_state new_state metadata : Option PyDict) :
    Except DBError AdminAuditLogRow :=
  match create (audit_payload event_id resource_type resource_id action
      previous_state new_state metadata) with
  | Except.error e => Except.error e
  | Except.ok result => Except.ok result

/-- `login.get("details", {}).get("username", "unknown")` of
`get_security_alerts`. -/
def loginUsername (e : AdminEventLogRow) : PyVal :=
  match dictGet e.details "username" with
  | some v => v
  | Option.none => PyVal.str "unknown"

/-- The grouping key `(ip_address, username-from-details)` of
`get_security_alerts`. -/
def loginKey (e : AdminEventLogRow) : String × PyVal :=
  (e.ip_address, loginUsername e)

/-- The rows returned by `crud_events.get_multi(db,
event_type=FAILED_LOGIN, status=FAILURE, timestamp__gte=lookback_time)`. -/
def failedLoginRows (events : List AdminEventLogRow) (lookback_time : Int) :
    List AdminEventLogRow :=
  events.filter (fun e =>
    decide (e.event_type = EventType.FAILED_LOGIN) &&
    decide (e.status = EventStatus.FAILURE) &&
    decide (lookback_time ≤ e.timestamp))

/-- One step of `failed_login_patterns[key] = failed_login_patterns.get(key, 0) + 1`. -/
def bumpCount (key : String × PyVal) :
    List ((String × PyVal) × Nat) → List ((String × PyVal) × Nat)
  | [] => [(key, 1)]
  | (k, c) :: rest =>
    if k = key then (k, c + 1) :: rest else (k, c) :: bumpCount key rest

/-- The `failed_login_patterns` dictionary built by `get_security_alerts`. -/
def failedLoginPatterns (logins : List AdminEventLogRow) :
    List ((String × PyVal) × Nat) :=
  logins.foldl (fun acc e => bumpCount (loginKey e) acc) []

/-- One alert emitted by `get_security_alerts`, with the fields of its
`details` sub-dictionary projected out. -/
structure SecurityAlert where
  type : String
  severity : String
  ip_address : String
  username : PyVal
  attempts : Nat
deriving DecidableEq, Repr

/-- `EventService.get_security_alerts`: scans FAILED_LOGIN / FAILURE events
whose timestamp is at least `now - lookback_hours` hours, groups them by
`(ip_address, username-from-details)`, and emits one alert per group whose
count is at least 5. -/
def get_security_alerts (events : List AdminEventLogRow)
    (now lookback_hours : Int) : List SecurityAlert :=
  let lookback_time := now - lookback_hours * 3600
  let failed_logins := failedLoginRows events lookback_time
  let patterns := failedLoginPatterns failed_logins
  (patterns.filter (fun p => decide (5 ≤ p.2))).map (fun p =>
    { type := "multiple_failed_logins"
      severity := "high"
      ip_address := p.1.1
      username := p.1.2
      attempts := p.2 })

/-- `crud_events.delete_multi(db, timestamp__lt=cutoff_date)`. -/
def deleteEventsBefore (events : List AdminEventLogRow) (cutoff : Int) :
    List AdminEventLogRow :=
  events.filter (fun e => !(decide (e.timestamp < cutoff)))

/-- `crud_audits.delete_multi(db, timestamp__lt=cutoff_date)`. -/
def deleteAuditsBefore (audits : List AdminAuditLogRow) (cutoff : Int) :
    List AdminAuditLogRow :=
  audits.filter (fun a => !(decide (a.timestamp < cutoff)))

/-- `EventService.cleanup_old_logs`: deletes event and audit rows whose
timestamp is strictly before `now - retention_days` days, returning the
surviving rows of both tables. -/
def cleanup_old_logs (events : List AdminEventLogRow)
    (audits : List AdminAuditLogRow) (now retention_days : Int) :
    List AdminEventLogRow × List AdminAuditLogRow :=
  let cutoff_date := now - retention_days * 86400
  (deleteEventsBefore events cutoff_date, deleteAuditsBefore audits cutoff_date)

/-- A persisted `admin_session` row (`session/models.py`). -/
structure AdminSession where
  session_id : String
  user_id : Int
  ip_address : String
  user_agent : String
  device_info : PyDict
  created_at : Int
  last_activity : Int
  is_active : Bool
  session_metadata : PyDict
deriving DecidableEq, Repr

/-- Whether a session row is an active session of user `uid`. -/
def isActiveFor (uid : Int) (s : AdminSession) : Bool :=
  decide (s.user_id = uid) && s.is_active

/-- The sessions of user `uid` with `is_active = true`. -/
def activeSessions (db : List AdminSession) (uid : Int) : List AdminSession :=
  db.filter (isActiveFor uid)

/-- Keeps the session whose `last_activity` is older. -/
def olderSession (a b : AdminSession) : AdminSession :=
  if b.last_activity < a.last_activity then b else a

/-- Modelled from the spec: the session manager (`session/manager.py` is not
among the provided sources) selects "the single oldest-by-`last_activity`
active session" of the user for eviction. -/
def oldestActiveSession (db : List AdminSession) (uid : Int) :
    Option AdminSession :=
  match activeSessions db uid with
  | [] => Option.none
  | s :: rest => some (rest.foldl olderSession s)

/-- Sets `is_active = false` on the session row with the given identifier. -/
def deactivateSession (db : List AdminSession) (sid : String) :
    List AdminSession :=
  db.map (fun s =>
    if s.session_id = sid then { s with is_active := false } else s)

/-- The fresh session row built on creation: captures IP, user agent and
device info from the request context, sets `active = true` and
`last_activity = now`. -/
def mkSession (sid : String) (uid : Int) (request : RequestCtx) (now : Int)
    (metadata : PyDict) : AdminSession :=
  { session_id := sid
    user_id := uid
    ip_address :=
      match request.client with
      | some c => c.host
      | Option.none => "unknown"
    user_agent := headerGet request.headers "user-agent" ""
    device_info := []
    created_at := now
    last_activity := now
    is_active := true
    session_metadata := metadata }

/-- Modelled from the spec: `SessionManager.create_session`
(`session/manager.py` is not among the provided sources).  Counts the
user's current active sessions; if the count is at or above
`max_sessions`, the single oldest-by-`last_activity` active session of
that user is deactivated first; then the fresh session row is inserted. -/
def create_session (db : List AdminSession) (max_sessions : Nat) (uid : Int)
    (sid : String) (request : RequestCtx) (now : Int) (metadata : PyDict) :
    List AdminSession :=
  let db1 :=
    if max_sessions ≤ (activeSessions db uid).length then
      match oldestActiveSession db uid with
      | some oldest => deactivateSession db oldest.session_id
      | Option.none => db
    else db
  db1 ++ [mkSession sid uid request now metadata]

/-- A row of the token blacklist table: the revoked token string and the
revocation timestamp. -/
structure TokenBlacklistEntry where
  token : String
  blacklisted_at : Int
deriving DecidableEq, Repr

/-- The token store consulted by verification: the blacklist table. -/
structure TokenStore where
  blacklist : List TokenBlacklistEntry
deriving DecidableEq, Repr

/-- Whether the exact token string is recorded in the blacklist. -/
def isBlacklisted (store : TokenStore) (token : String) : Bool :=
  store.blacklist.any (fun e => decide (e.token = token))

/-- Modelled from the spec: `blacklist_token` (the token service source is
not among the provided sources) idempotently records the token as
revoked. -/
def blacklist_token (store : TokenStore) (token : String) (now : Int) :
    TokenStore :=
  if isBlacklisted store token then store
  else { blacklist :=
          store.blacklist ++ [{ token := token, blacklisted_at := now }] }

/-- The decoded claims of a token: the normalized subject identity and the
embedded expiry. -/
structure TokenClaims where
  username_or_email : String
  exp : Int
deriving DecidableEq, Repr

/-- The outcome of `verify_token`: decoded claims, or a typed failure. -/
inductive VerifyResult where
  | ok : TokenClaims → VerifyResult
  | invalidToken : VerifyResult
  | tokenExpired : VerifyResult
  | tokenRevoked : VerifyResult
deriving DecidableEq, Repr

/-- Modelled from the spec: `verify_token` (the token service source is not
among the provided sources).  A blacklisted token fails with
`TokenRevoked` even before its natural expiry; otherwise a token whose
signature does not decode fails with `InvalidToken`, an expired one with
`TokenExpired`, and a valid one yields its claims.  `decodeTok` stands for
the opaque signature check and claim extraction. -/
def verify_token (decodeTok : String → Option TokenClaims)
    (store : TokenStore) (token : String) (now : Int) : VerifyResult :=
  if isBlacklisted store token then VerifyResult.tokenRevoked
  else
    match decodeTok token with
    | Option.none => VerifyResult.invalidToken
    | some claims =>
      if claims.exp ≤ now then VerifyResult.tokenExpired
      else VerifyResult.ok claims

/-- Applies a sequence of further `blacklist_token` calls to the store. -/
def applyBlacklists (store : TokenStore) (ops : List (String × Int)) :
    TokenStore :=
  ops.foldl (fun st op => blacklist_token st op.1 op.2) store

/-- One `response.set_cookie(...)` call, with the flags the login handler
passes. -/
structure SetCookie where
  key : String
  value : String
  httponly : Bool
  secure : Bool
  max_age : Int
  path : String
  samesite : String
deriving DecidableEq, Repr

/-- What the login handler did to the admin database transaction. -/
inductive DbOutcome where
  | committed : DbOutcome
  | rolledBack : DbOutcome
  | untouched : DbOutcome
deriving DecidableEq, Repr

/-- The body of the login handler's response: a redirect to the dashboard,
or the login template with an optional error message. -/
inductive LoginBody where
  | redirect : String → LoginBody
  | loginTemplate : Option String → LoginBody
deriving DecidableEq, Repr

/-- The observable outcome of one call to the login handler. -/
structure LoginResponse where
  body : LoginBody
  cookies : List SetCookie
  dbOutcome : DbOutcome
deriving DecidableEq, Repr

/-- The admin user row handed back by `authenticate_user`. -/
structure AdminUser where
  id : Int
  username : String
deriving DecidableEq, Repr

/-- The `AdminSite` configuration read by the login handler. -/
structure AdminSiteConfig where
  mount_path : String
  secure_cookies : Bool
  access_token_expire_minutes : Int
deriving DecidableEq, Repr

/-- The `response.set_cookie(key="access_token", ...)` call of the login
handler. -/
def accessTokenCookie (cfg : AdminSiteConfig) (access_token : String)
    (max_age_int : Int) : SetCookie :=
  { key := "access_token"
    value := "Bearer " ++ access_token
    httponly := true
    secure := cfg.secure_cookies
    max_age := max_age_int
    path := "/" ++ cfg.mount_path
    samesite := "lax" }

/-- The `response.set_cookie(key="session_id", ...)` call of the login
handler. -/
def sessionIdCookie (cfg : AdminSiteConfig) (sid : String)
    (max_age_int : Int) : SetCookie :=
  { key := "session_id"
    value := sid
    httponly := true
    secure := cfg.secure_cookies
    max_age := max_age_int
    path := "/" ++ cfg.mount_path
    samesite := "lax" }

/-- `login_page_inner` of `admin_interface/admin_site.py`, as a function of
the outcomes of its awaited collaborator calls: `auth_result` is what
`authenticate_user` returned (`none` covers a falsy user);
`session_result` is the outcome of `create_session` (an `Except.error`
covers both a raised error and the falsy-session check, carrying the
exception text); `commit_result` is the outcome of `db.commit()`.  On a
falsy user the login template is returned with an error and the
transaction untouched; on a session-creation failure the transaction is
rolled back and the login template returned with an error and no cookies;
on success a redirect carrying both cookies is returned, each cookie
HttpOnly, SameSite lax, path-scoped to the mount path, with max-age
`int(access_token_expires.total_seconds())`. -/
def login_page_inner (cfg : AdminSiteConfig) (auth_result : Option AdminUser)
    (access_token : String) (session_result : Except String AdminSession)
    (commit_result : Except String Unit) : LoginResponse :=
  match auth_result with
  | Option.none =>
    { body := LoginBody.loginTemplate
        (some "Invalid credentials. Please try again.")
      cookies := []
      dbOutcome := DbOutcome.untouched }
  | some _user =>
    match session_result with
    | Except.error e =>
      { body := LoginBody.loginTemplate (some ("Error creating session: " ++ e))
        cookies := []
        dbOutcome := DbOutcome.rolledBack }
    | Except.ok session =>
      let max_age_int := cfg.access_token_expire_minutes * 60
      match commit_result with
      | Except.error e =>
        { body := LoginBody.loginTemplate
            (some ("Error creating session: " ++ e))
          cookies := []
          dbOutcome := DbOutcome.rolledBack }
      | Except.ok _ =>
        { body := LoginBody.redirect ("/" ++ cfg.mount_path ++ "/")
          cookies := [accessTokenCookie cfg access_token max_age_int,
                      sessionIdCookie cfg session.session_id max_age_int]
          dbOutcome := DbOutcome.committed }

/-- A concrete request context used to instantiate theorems. -/
def sampleRequest : RequestCtx :=
  { client := some { host := "127.0.0.1" }, headers := [] }

/-- A concrete persisted event row used to instantiate theorems. -/
def sampleEventRow : AdminEventLogRow :=
  { id := 1
    timestamp := 0
    event_type := EventType.LOGIN
    status := EventStatus.SUCCESS
    user_id := 1
    session_id := "s"
    ip_address := "127.0.0.1"
    user_agent := ""
    resource_type := Option.none
    resource_id := Option.none
    details := [] }

theorem isFalsyDict_eq_false (d : PyDict) (h : d ≠ []) :
    isFalsyDict (some d) = false := by
  cases d with
  | nil => exact absurd rfl h
  | cons a l => rfl

theorem mem_keys_of_dictGet (d : PyDict) (k : String)
    (h : dictGet d k ≠ Option.none) : k ∈ d.map Prod.fst := by
  induction d with
  | nil => simp [dictGet] at h
  | cons p rest ih =>
    obtain ⟨k', v'⟩ := p
    by_cases hk : k' = k
    · simp [hk]
    · rw [dictGet, if_neg hk] at h
      simpa using Or.inr (ih h)

theorem mem_allKeys_of_pyGet_ne (p n : PyDict) (k : String)
    (h : pyGet p k ≠ pyGet n k) : k ∈ allKeys p n := by
  rw [allKeys, List.mem_dedup, List.mem_append]
  by_cases hp : dictGet p k = Option.none
  · right
    apply mem_keys_of_dictGet
    intro hn
    exact h (by simp [pyGet, hp, hn])
  · exact Or.inl (mem_keys_of_dictGet _ _ hp)

theorem compute_changes_nonempty (p n : PyDict) (hp : p ≠ []) (hn : n ≠ []) :
    compute_changes (some p) (some n) =
      (allKeys p n).filterMap (fun key =>
        if pyGet p key ≠ pyGet n key
        then some (key, changeEntry (pyGet p key) (pyGet n key))
        else Option.none) := by
  unfold compute_changes
  simp [isFalsyDict_eq_false p hp, isFalsyDict_eq_false n hn]

/-- C1 fails as stated: with `previous_state = {}` (an empty dictionary) and
`new_state = {"a": 1}`, the key `"a"` has differing `.get` values in the
two states, yet `_compute_changes` returns `{}`, so no entry for `"a"`
appears. -/
theorem compute_changes_iff_counterexample :
    ¬ ((("a", changeEntry (pyGet [] "a") (pyGet [("a", PyVal.int 1)] "a")) ∈
          compute_changes (some []) (some [("a", PyVal.int 1)])) ↔
        pyGet [] "a" ≠ pyGet [("a", PyVal.int 1)] "a") := by
  decide

/-- C1 (amended): provided `previous_state` and `new_state` are both
non-empty, `_compute_changes` contains key K with entry
`{old: previous_state.get(K), new: new_state.get(K)}` if and only if
`previous_state.get(K) != new_state.get(K)`, and a key whose values are
equal in both states never appears with any entry. -/
theorem compute_changes_iff_nonempty (p n : PyDict) (k : String)
    (hp : p ≠ []) (hn : n ≠ []) :
    (((k, changeEntry (pyGet p k) (pyGet n k)) ∈
        compute_changes (some p) (some n)) ↔ pyGet p k ≠ pyGet n k) ∧
    (pyGet p k = pyGet n k →
      ∀ e, (k, e) ∉ compute_changes (some p) (some n)) := by
  rw [compute_changes_nonempty p n hp hn]
  constructor
  · constructor
    · intro hmem
      rw [List.mem_filterMap] at hmem
      obtain ⟨a, _, ha⟩ := hmem
      rcases Decidable.em (pyGet p a ≠ pyGet n a) with hne | hne
      · rw [if_pos hne] at ha
        have hpair := Option.some.inj ha
        have hak : a = k := congrArg Prod.fst hpair
        rw [hak] at hne
        exact hne
      · rw [if_neg hne] at ha
        exact absurd ha (by simp)
    · intro hne
      rw [List.mem_filterMap]
      exact ⟨k, mem_allKeys_of_pyGet_ne p n k hne, by rw [if_pos hne]⟩
  · intro heq e hmem
    rw [List.mem_filterMap] at hmem
    obtain ⟨a, _, ha⟩ := hmem
    rcases Decidable.em (pyGet p a ≠ pyGet n a) with hne | hne
    · rw [if_pos hne] at ha
      have hpair := Option.some.inj ha
      have hak : a = k := congrArg Prod.fst hpair
      rw [hak] at hne
      exact hne heq
    · rw [if_neg hne] at ha
      exact absurd ha (by simp)

/-- Witness for the amended C1 at the spec's own update scenario,
`{status: "pending"}` to `{status: "paid", notes: "ok"}`. -/
theorem compute_changes_iff_nonempty_witness :
    ((("status", changeEntry
          (pyGet [("status", PyVal.str "pending")] "status")
          (pyGet [("status", PyVal.str "paid"), ("notes", PyVal.str "ok")]
            "status")) ∈
        compute_changes (some [("status", PyVal.str "pending")])
          (some [("status", PyVal.str "paid"), ("notes", PyVal.str "ok")])) ↔
      pyGet [("status", PyVal.str "pending")] "status" ≠
        pyGet [("status", PyVal.str "paid"), ("notes", PyVal.str "ok")]
          "status") ∧
    (pyGet [("status", PyVal.str "pending")] "status" =
        pyGet [("status", PyVal.str "paid"), ("notes", PyVal.str "ok")]
          "status" →
      ∀ e, ("status", e) ∉
        compute_changes (some [("status", PyVal.str "pending")])
          (some [("status", PyVal.str "paid"), ("notes", PyVal.str "ok")])) :=
  compute_changes_iff_nonempty _ _ _ (by decide) (by decide)

/-- C10: whenever `previous_state` or `new_state` is `None` or an empty
dictionary, `_compute_changes` returns `{}` and `create_audit_log` stores
`changes = {}`, even if the other state is non-empty — in particular a
CREATE transition from no prior state yields an empty changes map. -/
theorem compute_changes_empty_when_falsy
    (previous_state new_state : Option PyDict) (event_id : Int)
    (resource_type resource_id action : String) (metadata : Option PyDict)
    (h : isFalsyDict previous_state = true ∨ isFalsyDict new_state = true) :
    compute_changes previous_state new_state = [] ∧
    (audit_payload event_id resource_type resource_id action
        previous_state new_state metadata).changes = [] := by
  have hcc : compute_changes previous_state new_state = [] := by
    unfold compute_changes
    rcases h with h | h <;> simp [h]
  exact ⟨hcc, by simp [audit_payload, hcc, serialize_dict, isFalsyDict]⟩

/-- Witness for C10 at a CREATE transition: no prior state, a populated new
state. -/
theorem compute_changes_empty_when_falsy_witness :
    compute_changes Option.none (some [("status", PyVal.str "paid")]) = [] ∧
    (audit_payload 1 "product" "7" "create" Option.none
        (some [("status", PyVal.str "paid")]) Option.none).changes = [] :=
  compute_changes_empty_when_falsy Option.none
    (some [("status", PyVal.str "paid")]) 1 "product" "7" "create"
    Option.none (Or.inl (by decide))

/-- C5: when persisting the event entry fails, `log_event` re-raises the
underlying error to its caller (after logging it); a failing commit is
likewise re-raised — event-logging failures are never silently
swallowed. -/
theorem log_event_propagates_failure
    (create : AdminEventLogCreate → Except DBError AdminEventLogRow)
    (commit : Except DBError Unit)
    (event_type : EventType) (status : EventStatus) (user_id : Int)
    (session_id : String) (request : RequestCtx)
    (resource_type resource_id : Option String) (details : Option PyDict)
    (e : DBError) :
    (create (event_payload event_type status user_id session_id request
        resource_type resource_id details) = Except.error e →
      log_event create commit event_type status user_id session_id request
        resource_type resource_id details = Except.error e) ∧
    (commit = Except.error e →
      ∀ r, create (event_payload event_type status user_id session_id request
          resource_type resource_id details) = Except.ok r →
        log_event create commit event_type status user_id session_id request
          resource_type resource_id details = Except.error e) := by
  constructor
  · intro h
    unfold log_event
    rw [h]
  · intro hc r hr
    unfold log_event
    rw [hr, hc]

/-- Witness for C5: a failing insert and a failing commit both surface. -/
theorem log_event_propagates_failure_witness :
    log_event (fun _ => Except.error { message := "db down" }) (Except.ok ())
      EventType.LOGIN EventStatus.SUCCESS 1 "s" sampleRequest Option.none
      Option.none Option.none = Except.error { message := "db down" } ∧
    log_event (fun _ => Except.ok sampleEventRow)
      (Except.error { message := "commit failed" })
      EventType.LOGIN EventStatus.SUCCESS 1 "s" sampleRequest Option.none
      Option.none Option.none
      = Except.error { message := "commit failed" } :=
  ⟨(log_event_propagates_failure _ _ _ _ _ _ _ _ _ _ _).1 rfl,
   (log_event_propagates_failure _ _ _ _ _ _ _ _ _ _ _).2 rfl
     sampleEventRow rfl⟩

/-- C9: `log_event` hands the CRUD helper a payload whose `details` field is
the JSON-safe serialization of the caller's mapping; on values, `datetime`
becomes its ISO-8601 string, `Enum` becomes its scalar value, `Decimal`
becomes a string, and JSON-native values are unchanged (containers
elementwise). -/
theorem log_event_serializes_details (event_type : EventType)
    (status : EventStatus) (user_id : Int) (session_id : String)
    (request : RequestCtx) (resource_type resource_id : Option String)
    (details : PyDict) :
    (event_payload event_type status user_id session_id request resource_type
        resource_id (some details)).details = serialize_dict (some details) ∧
    (∀ s, serializeVal (PyVal.datetime s) = PyVal.str s) ∧
    (∀ v, serializeVal (PyVal.enum v) = serializeVal v) ∧
    (∀ s, serializeVal (PyVal.decimal s) = PyVal.str s) ∧
    serializeVal PyVal.none = PyVal.none ∧
    (∀ b, serializeVal (PyVal.bool b) = PyVal.bool b) ∧
    (∀ i, serializeVal (PyVal.int i) = PyVal.int i) ∧
    (∀ s, serializeVal (PyVal.str s) = PyVal.str s) ∧
    serializeVal PyVal.listNil = PyVal.listNil ∧
    (∀ h t, serializeVal (PyVal.listCons h t) =
        PyVal.listCons (serializeVal h) (serializeVal t)) ∧
    serializeVal PyVal.dictNil = PyVal.dictNil ∧
    (∀ k v r, serializeVal (PyVal.dictCons k v r) =
        PyVal.dictCons k (serializeVal v) (serializeVal r)) :=
  ⟨rfl, fun _ => rfl, fun _ => rfl, fun _ => rfl, rfl, fun _ => rfl,
   fun _ => rfl, fun _ => rfl, rfl, fun _ _ => rfl, rfl, fun _ _ _ => rfl⟩

/-- C8: `cleanup_old_logs` deletes exactly the event and audit rows whose
timestamp is strictly older than `now - retention_days` days; every row
with a newer (or equal) timestamp survives. -/
theorem cleanup_old_logs_spec (events : List AdminEventLogRow)
    (audits : List AdminAuditLogRow) (now retention_days : Int) :
    (∀ e : AdminEventLogRow,
      e ∈ (cleanup_old_logs events audits now retention_days).1 ↔
        e ∈ events ∧ ¬ (e.timestamp < now - retention_days * 86400)) ∧
    (∀ a : AdminAuditLogRow,
      a ∈ (cleanup_old_logs events audits now retention_days).2 ↔
        a ∈ audits ∧ ¬ (a.timestamp < now - retention_days * 86400)) := by
  constructor
  · intro x
    simp [cleanup_old_logs, deleteEventsBefore, List.mem_filter]
  · intro x
    simp [cleanup_old_logs, deleteAuditsBefore, List.mem_filter]

/-- C4: when credentials were accepted but session creation fails, the
whole login attempt fails: the admin transaction is rolled back and the
response is the login template with an error message, carrying no cookies
at all — in particular neither the `access_token` nor the `session_id`
cookie. -/
theorem login_session_failure_no_cookies (cfg : AdminSiteConfig)
    (user : AdminUser) (access_token : String) (e : String)
    (commit_result : Except String Unit) :
    (login_page_inner cfg (some user) access_token (Except.error e)
        commit_result).body =
      LoginBody.loginTemplate (some ("Error creating session: " ++ e)) ∧
    (login_page_inner cfg (some user) access_token (Except.error e)
        commit_result).cookies = [] ∧
    (login_page_inner cfg (some user) access_token (Except.error e)
        commit_result).dbOutcome = DbOutcome.rolledBack :=
  ⟨rfl, rfl, rfl⟩

/-- C7: a successful login redirects, commits, and sets exactly two
cookies: `access_token` holding `Bearer <token>` and `session_id` holding
the new session's identifier, both HttpOnly, SameSite lax, path-scoped to
the admin mount path, and carrying the same max-age equal to the
access-token TTL in seconds. -/
theorem login_success_sets_both_cookies (cfg : AdminSiteConfig)
    (user : AdminUser) (access_token : String) (session : AdminSession) :
    ∃ c1 c2 : SetCookie,
      (login_page_inner cfg (some user) access_token (Except.ok session)
          (Except.ok ())).cookies = [c1, c2] ∧
      (login_page_inner cfg (some user) access_token (Except.ok session)
          (Except.ok ())).body =
        LoginBody.redirect ("/" ++ cfg.mount_path ++ "/") ∧
      (login_page_inner cfg (some user) access_token (Except.ok session)
          (Except.ok ())).dbOutcome = DbOutcome.committed ∧
      c1.key = "access_token" ∧ c1.value = "Bearer " ++ access_token ∧
      c2.key = "session_id" ∧ c2.value = session.session_id ∧
      c1.httponly = true ∧ c2.httponly = true ∧
      c1.samesite = "lax" ∧ c2.samesite = "lax" ∧
      c1.path = "/" ++ cfg.mount_path ∧ c2.path = "/" ++ cfg.mount_path ∧
      c1.max_age = cfg.access_token_expire_minutes * 60 ∧
      c2.max_age = cfg.access_token_expire_minutes * 60 :=
  ⟨accessTokenCookie cfg access_token (cfg.access_token_expire_minutes * 60),
   sessionIdCookie cfg session.session_id
     (cfg.access_token_expire_minutes * 60),
   rfl, rfl, rfl, rfl, rfl, rfl, rfl, rfl, rfl, rfl, rfl, rfl, rfl, rfl, rfl⟩

theorem isBlacklisted_blacklist_token_self (store : TokenStore)
    (token : String) (now : Int) :
    isBlacklisted (blacklist_token store token now) token = true := by
  unfold blacklist_token
  by_cases hb : isBlacklisted store token
  · simp [hb]
  · simp only [hb, Bool.false_eq_true, if_false]
    simp [isBlacklisted]

theorem isBlacklisted_mono (store : TokenStore) (token t : String) (n : Int)
    (h : isBlacklisted store token = true) :
    isBlacklisted (blacklist_token store t n) token = true := by
  unfold blacklist_token
  by_cases hb : isBlacklisted store t
  · simp [hb, h]
  · simp only [hb, Bool.false_eq_true, if_false]
    unfold isBlacklisted at h ⊢
    simp only [List.any_append, h, Bool.true_or]

theorem isBlacklisted_applyBlacklists (ops : List (String × Int))
    (store : TokenStore) (token : String)
    (h : isBlacklisted store token = true) :
    isBlacklisted (applyBlacklists store ops) token = true := by
  induction ops generalizing store with
  | nil => exact h
  | cons op rest ih =>
    exact ih (blacklist_token store op.1 op.2)
      (isBlacklisted_mono store token op.1 op.2 h)

/-- C3: after `blacklist_token` records token `t`, every subsequent
`verify_token` call with the exact token string `t` fails with
`TokenRevoked` — whatever its embedded expiry, whatever the later clock
reading, and after any number of further blacklisting operations. -/
theorem blacklist_token_revokes (decodeTok : String → Option TokenClaims)
    (store : TokenStore) (token : String) (now : Int)
    (ops : List (String × Int)) (later : Int) :
    verify_token decodeTok
      (applyBlacklists (blacklist_token store token now) ops) token later =
      VerifyResult.tokenRevoked := by
  unfold verify_token
  rw [isBlacklisted_applyBlacklists ops (blacklist_token store token now)
    token (isBlacklisted_blacklist_token_self store token now)]
  rfl

theorem olderSession_pick_b (a b : AdminSession)
    (h : b.last_activity < a.last_activity) : olderSession a b = b := by
  unfold olderSession
  exact if_pos h

theorem olderSession_pick_a (a b : AdminSession)
    (h : ¬ b.last_activity < a.last_activity) : olderSession a b = a := by
  unfold olderSession
  exact if_neg h

theorem foldl_olderSession_mem (l : List AdminSession) (s : AdminSession) :
    l.foldl olderSession s = s ∨ l.foldl olderSession s ∈ l := by
  induction l generalizing s with
  | nil => exact Or.inl rfl
  | cons a t ih =>
    rw [List.foldl_cons]
    by_cases hc : a.last_activity < s.last_activity
    · rw [olderSession_pick_b s a hc]
      rcases ih a with h | h
      · refine Or.inr ?_
        rw [h]
        exact List.mem_cons_self a t
      · exact Or.inr (List.mem_cons_of_mem a h)
    · rw [olderSession_pick_a s a hc]
      rcases ih s with h | h
      · exact Or.inl h
      · exact Or.inr (List.mem_cons_of_mem a h)

theorem foldl_olderSession_le (l : List AdminSession) (s : AdminSession) :
    (l.foldl olderSession s).last_activity ≤ s.last_activity ∧
    ∀ t ∈ l, (l.foldl olderSession s).last_activity ≤ t.last_activity := by
  induction l generalizing s with
  | nil => exact ⟨le_refl _, by simp⟩
  | cons a t ih =>
    rw [List.foldl_cons]
    obtain ⟨h1, h2⟩ := ih (olderSession s a)
    have hsa : (olderSession s a).last_activity ≤ s.last_activity ∧
        (olderSession s a).last_activity ≤ a.last_activity := by
      by_cases hc : a.last_activity < s.last_activity
      · rw [olderSession_pick_b s a hc]
        exact ⟨le_of_lt hc, le_refl _⟩
      · rw [olderSession_pick_a s a hc]
        exact ⟨le_refl _, le_of_not_lt hc⟩
    refine ⟨le_trans h1 hsa.1, ?_⟩
    intro x hx
    rcases List.mem_cons.mp hx with rfl | hx2
    · exact le_trans h1 hsa.2
    · exact h2 x hx2

theorem oldestActiveSession_spec (db : List AdminSession) (uid : Int)
    (ev : AdminSession) (h : oldestActiveSession db uid = some ev) :
    ev ∈ activeSessions db uid ∧
    ∀ t ∈ activeSessions db uid, ev.last_activity ≤ t.last_activity := by
  unfold oldestActiveSession at h
  cases hl : activeSessions db uid with
  | nil =>
    rw [hl] at h
    exact absurd h (by simp)
  | cons s rest =>
    rw [hl] at h
    have hev : ev = rest.foldl olderSession s := (Option.some.inj h).symm
    constructor
    · rw [hev]
      rcases foldl_olderSession_mem rest s with h1 | h1
      · rw [h1]
        exact List.mem_cons_self s rest
      · exact List.mem_cons_of_mem s h1
    · intro t ht
      obtain ⟨g1, g2⟩ := foldl_olderSession_le rest s
      rw [hev]
      rcases List.mem_cons.mp ht with rfl | ht2
      · exact g1
      · exact g2 t ht2

theorem oldestActiveSession_isSome (db : List AdminSession) (uid : Int)
    (h : activeSessions db uid ≠ []) :
    ∃ ev, oldestActiveSession db uid = some ev := by
  unfold oldestActiveSession
  cases hl : activeSessions db uid with
  | nil => exact absurd hl h
  | cons s rest => exact ⟨rest.foldl olderSession s, rfl⟩

theorem eq_of_session_id_eq (db : List AdminSession)
    (hnodup : (db.map AdminSession.session_id).Nodup)
    (s t : AdminSession) (hs : s ∈ db) (ht : t ∈ db)
    (h : s.session_id = t.session_id) : s = t := by
  induction db with
  | nil => simp at hs
  | cons a rest ih =>
    rw [List.map_cons, List.nodup_cons] at hnodup
    rcases List.mem_cons.mp hs with rfl | hs2
    · rcases List.mem_cons.mp ht with rfl | ht2
      · rfl
      · exfalso
        apply hnodup.1
        have hmem : t.session_id ∈ rest.map AdminSession.session_id :=
          List.mem_map.mpr ⟨t, ht2, rfl⟩
        rw [← h] at hmem
        exact hmem
    · rcases List.mem_cons.mp ht with rfl | ht2
      · exfalso
        apply hnodup.1
        have hmem : s.session_id ∈ rest.map AdminSession.session_id :=
          List.mem_map.mpr ⟨s, hs2, rfl⟩
        rw [h] at hmem
        exact hmem
      · exact ih hnodup.2 hs2 ht2

theorem countP_split (l : List AdminSession) (p q : AdminSession → Bool) :
    l.countP (fun s => p s && q s) + l.countP (fun s => p s && !(q s)) =
      l.countP p := by
  induction l with
  | nil => simp
  | cons a rest ih =>
    rw [List.countP_cons, List.countP_cons, List.countP_cons]
    by_cases hp : p a <;> by_cases hq : q a <;> simp [hp, hq] <;> omega

theorem countP_sid_eq_one (l : List AdminSession) (ev : AdminSession)
    (hnodup : (l.map AdminSession.session_id).Nodup) (hev : ev ∈ l) :
    l.countP (fun s => decide (s.session_id = ev.session_id)) = 1 := by
  induction l with
  | nil => simp at hev
  | cons a rest ih =>
    rw [List.map_cons, List.nodup_cons] at hnodup
    rcases List.mem_cons.mp hev with rfl | hev2
    · rw [List.countP_cons]
      have h0 : rest.countP (fun s => decide (s.session_id = ev.session_id))
          = 0 := by
        rw [List.countP_eq_zero]
        intro s hs hcontra
        rw [decide_eq_true_eq] at hcontra
        apply hnodup.1
        have hmem : s.session_id ∈ rest.map AdminSession.session_id :=
          List.mem_map.mpr ⟨s, hs, rfl⟩
        rw [hcontra] at hmem
        exact hmem
      simp [h0]
    · rw [List.countP_cons]
      have hhead : decide (a.session_id = ev.session_id) = false := by
        rw [decide_eq_false_iff_not]
        intro hcontra
        apply hnodup.1
        have hmem : ev.session_id ∈ rest.map AdminSession.session_id :=
          List.mem_map.mpr ⟨ev, hev2, rfl⟩
        rw [← hcontra] at hmem
        exact hmem
      simp [hhead, ih hnodup.2 hev2]

theorem map_eq_self_of_eq {α : Type} (l : List α) (f : α → α)
    (h : ∀ a ∈ l, f a = a) : l.map f = l := by
  induction l with
  | nil => rfl
  | cons a rest ih =>
    rw [List.map_cons, h a (List.mem_cons_self a rest),
      ih (fun b hb => h b (List.mem_cons_of_mem a hb))]

theorem activeSessions_cons (a : AdminSession) (rest : List AdminSession)
    (uid : Int) :
    activeSessions (a :: rest) uid =
      if isActiveFor uid a then a :: activeSessions rest uid
      else activeSessions rest uid := by
  unfold activeSessions
  rw [List.filter_cons]

theorem deactivateSession_cons (a : AdminSession) (rest : List AdminSession)
    (sid : String) :
    deactivateSession (a :: rest) sid =
      (if a.session_id = sid then { a with is_active := false } else a) ::
        deactivateSession rest sid := by
  unfold deactivateSession
  rw [List.map_cons]

theorem active_deactivate_length (db : List AdminSession) (uid : Int)
    (ev : AdminSession) :
    (db.map AdminSession.session_id).Nodup →
    ev ∈ activeSessions db uid →
    (activeSessions (deactivateSession db ev.session_id) uid).length + 1 =
      (activeSessions db uid).length := by
  induction db with
  | nil =>
    intro _ hev
    unfold activeSessions at hev
    simp at hev
  | cons a rest ih =>
    intro hnodup hev
    rw [List.map_cons, List.nodup_cons] at hnodup
    by_cases hsid : a.session_id = ev.session_id
    · have hev_not_rest : ev ∉ activeSessions rest uid := by
        intro hcon
        apply hnodup.1
        rw [hsid]
        exact List.mem_map.mpr ⟨ev, (List.mem_filter.mp hcon).1, rfl⟩
      have hev_eq : ev = a := by
        rw [activeSessions_cons] at hev
        by_cases hpa0 : isActiveFor uid a = true
        · rw [if_pos hpa0] at hev
          rcases List.mem_cons.mp hev with h | h
          · exact h
          · exact absurd h hev_not_rest
        · rw [if_neg hpa0] at hev
          exact absurd hev hev_not_rest
      have hpa : isActiveFor uid a = true := by
        have h2 := (List.mem_filter.mp
          (show ev ∈ List.filter (isActiveFor uid) (a :: rest) from hev)).2
        rw [hev_eq] at h2
        exact h2
      have hpga : isActiveFor uid { a with is_active := false } = false := by
        simp [isActiveFor]
      have hrest : deactivateSession rest ev.session_id = rest := by
        unfold deactivateSession
        apply map_eq_self_of_eq
        intro s hs
        apply if_neg
        intro hcontra
        apply hnodup.1
        rw [hsid]
        exact List.mem_map.mpr ⟨s, hs, hcontra⟩
      rw [deactivateSession_cons, if_pos hsid, hrest]
      rw [activeSessions_cons, activeSessions_cons]
      rw [if_neg (by simp [hpga]), if_pos hpa]
      simp
    · have hga : (if a.session_id = ev.session_id
          then { a with is_active := false } else a) = a := if_neg hsid
      have hev' : ev ∈ activeSessions rest uid := by
        rw [activeSessions_cons] at hev
        by_cases hpa0 : isActiveFor uid a = true
        · rw [if_pos hpa0] at hev
          rcases List.mem_cons.mp hev with h | h
          · exact absurd (by rw [h]) hsid
          · exact h
        · rw [if_neg hpa0] at hev
          exact hev
      have ihh := ih hnodup.2 hev'
      rw [deactivateSession_cons, hga]
      rw [activeSessions_cons, activeSessions_cons]
      by_cases hpa : isActiveFor uid a = true
      · rw [if_pos hpa, if_pos hpa, List.length_cons, List.length_cons]
        rw [ihh]
      · rw [if_neg hpa, if_neg hpa]
        exact ihh

theorem activeSessions_append (l1 l2 : List AdminSession) (uid : Int) :
    activeSessions (l1 ++ l2) uid =
      activeSessions l1 uid ++ activeSessions l2 uid := by
  unfold activeSessions
  rw [List.filter_append]

/-- C2: creating a session (fresh unique identifier) for a user who already
has `max_sessions` active sessions with globally unique session
identifiers deactivates exactly one previously active session of that
user — one with the oldest `last_activity` — leaves the newly created
session active, and keeps the user's active-session count at
`max_sessions`, hence at most `max_sessions`. -/
theorem create_session_evicts_oldest (db : List AdminSession)
    (max_sessions : Nat) (uid : Int) (sid : String) (request : RequestCtx)
    (now : Int) (metadata : PyDict)
    (hnodup : (db.map AdminSession.session_id).Nodup)
    (hcount : (activeSessions db uid).length = max_sessions)
    (hpos : 0 < max_sessions) :
    ∃ ev ∈ activeSessions db uid,
      (∀ t ∈ activeSessions db uid, ev.last_activity ≤ t.last_activity) ∧
      mkSession sid uid request now metadata ∈
        create_session db max_sessions uid sid request now metadata ∧
      (mkSession sid uid request now metadata).is_active = true ∧
      (activeSessions
          (create_session db max_sessions uid sid request now metadata)
          uid).length = max_sessions ∧
      ∀ s ∈ db, s.user_id = uid → s.is_active = true →
        ((∃ r ∈ create_session db max_sessions uid sid request now metadata,
            r.session_id = s.session_id ∧ r.is_active = false) ↔
          s.session_id = ev.session_id) := by
  have hne : activeSessions db uid ≠ [] := by
    intro h0
    rw [h0] at hcount
    simp only [List.length_nil] at hcount
    omega
  obtain ⟨ev, hev⟩ := oldestActiveSession_isSome db uid hne
  obtain ⟨hmem, hmin⟩ := oldestActiveSession_spec db uid ev hev
  have hresult : create_session db max_sessions uid sid request now metadata =
      deactivateSession db ev.session_id ++
        [mkSession sid uid request now metadata] := by
    simp only [create_session]
    rw [hcount, if_pos (le_refl max_sessions), hev]
  refine ⟨ev, hmem, hmin, ?_, rfl, ?_, ?_⟩
  · rw [hresult]
    simp
  · rw [hresult, activeSessions_append, List.length_append]
    have h1 : activeSessions [mkSession sid uid request now metadata] uid =
        [mkSession sid uid request now metadata] := by
      simp [activeSessions, isActiveFor, mkSession]
    rw [h1]
    have hdlen := active_deactivate_length db uid ev hnodup hmem
    simp only [List.length_singleton]
    omega
  · intro s hs hsu hsa
    rw [hresult]
    constructor
    · rintro ⟨r, hr, hrs, hrina⟩
      rcases List.mem_append.mp hr with hr1 | hr2
      · unfold deactivateSession at hr1
        rcases List.mem_map.mp hr1 with ⟨t, htdb, hgt⟩
        have hsidpres : r.session_id = t.session_id := by
          rw [← hgt]
          by_cases h : t.session_id = ev.session_id
          · rw [if_pos h]
          · rw [if_neg h]
        have hts : t = s := eq_of_session_id_eq db hnodup t s htdb hs
          (by rw [← hsidpres]; exact hrs)
        by_cases h : t.session_id = ev.session_id
        · rw [← hts]
          exact h
        · exfalso
          rw [if_neg h] at hgt
          rw [← hgt] at hrina
          rw [hts, hsa] at hrina
          exact absurd hrina (by simp)
      · exfalso
        have hrnew : r = mkSession sid uid request now metadata := by
          simpa using hr2
        rw [hrnew] at hrina
        simp [mkSession] at hrina
    · intro hse
      refine ⟨{ s with is_active := false }, ?_, rfl, rfl⟩
      apply List.mem_append_left
      unfold deactivateSession
      exact List.mem_map.mpr ⟨s, hs, by rw [if_pos hse]⟩

/-- Five concrete active sessions of user 1 with distinct identifiers and
strictly increasing `last_activity`, filling the default cap. -/
def wSessions : List AdminSession :=
  [{ session_id := "s1", user_id := 1, ip_address := "10.0.0.1",
     user_agent := "ua", device_info := [], created_at := 0,
     last_activity := 10, is_active := true, session_metadata := [] },
   { session_id := "s2", user_id := 1, ip_address := "10.0.0.1",
     user_agent := "ua", device_info := [], created_at := 0,
     last_activity := 20, is_active := true, session_metadata := [] },
   { session_id := "s3", user_id := 1, ip_address := "10.0.0.1",
     user_agent := "ua", device_info := [], created_at := 0,
     last_activity := 30, is_active := true, session_metadata := [] },
   { session_id := "s4", user_id := 1, ip_address := "10.0.0.1",
     user_agent := "ua", device_info := [], created_at := 0,
     last_activity := 40, is_active := true, session_metadata := [] },
   { session_id := "s5", user_id := 1, ip_address := "10.0.0.1",
     user_agent := "ua", device_info := [], created_at := 0,
     last_activity := 50, is_active := true, session_metadata := [] }]

/-- Witness for C2 at the default cap of five sessions. -/
theorem create_session_evicts_oldest_witness :
    ∃ ev ∈ activeSessions wSessions 1,
      (∀ t ∈ activeSessions wSessions 1,
        ev.last_activity ≤ t.last_activity) ∧
      mkSession "s6" 1 sampleRequest 60 [] ∈
        create_session wSessions 5 1 "s6" sampleRequest 60 [] ∧
      (mkSession "s6" 1 sampleRequest 60 []).is_active = true ∧
      (activeSessions (create_session wSessions 5 1 "s6" sampleRequest 60 [])
          1).length = 5 ∧
      ∀ s ∈ wSessions, s.user_id = 1 → s.is_active = true →
        ((∃ r ∈ create_session wSessions 5 1 "s6" sampleRequest 60 [],
            r.session_id = s.session_id ∧ r.is_active = false) ↔
          s.session_id = ev.session_id) :=
  create_session_evicts_oldest wSessions 5 1 "s6" sampleRequest 60 []
    (by decide) (by decide) (by decide)

theorem countP_ext {α : Type} (l : List α) (p q : α → Bool)
    (h : ∀ a ∈ l, p a = q a) : l.countP p = l.countP q := by
  induction l with
  | nil => rfl
  | cons a rest ih =>
    rw [List.countP_cons, List.countP_cons, h a (List.mem_cons_self a rest),
      ih (fun b hb => h b (List.mem_cons_of_mem a hb))]

/-- The count associated with a key in the patterns dictionary (0 when the
key is absent). -/
def countOf : List ((String × PyVal) × Nat) → (String × PyVal) → Nat
  | [], _ => 0
  | (k', c) :: rest, k => if k' = k then c else countOf rest k

theorem countOf_bumpCount (j k : String × PyVal)
    (acc : List ((String × PyVal) × Nat)) :
    countOf (bumpCount j acc) k = countOf acc k + if j = k then 1 else 0 := by
  induction acc with
  | nil =>
    by_cases h : j = k <;> simp [bumpCount, countOf, h]
  | cons hd rest ih =>
    obtain ⟨k', c⟩ := hd
    by_cases h1 : k' = j
    · subst h1
      by_cases h2 : k' = k <;> simp [bumpCount, countOf, h2]
    · by_cases h2 : k' = k
      · have h3 : ¬ (j = k) := fun hh => h1 (h2.trans hh.symm)
        have h4 : ¬ (k = j) := fun hh => h3 hh.symm
        simp [bumpCount, countOf, h1, h2, h3, h4]
      · simp [bumpCount, countOf, h1, h2, ih]

theorem keys_bumpCount (j k : String × PyVal)
    (acc : List ((String × PyVal) × Nat)) :
    k ∈ (bumpCount j acc).map Prod.fst ↔
      k ∈ acc.map Prod.fst ∨ k = j := by
  induction acc with
  | nil => simp [bumpCount]
  | cons hd rest ih =>
    obtain ⟨k', c⟩ := hd
    by_cases h1 : k' = j
    · subst h1
      simp [bumpCount]
      tauto
    · simp [bumpCount, h1, ih]
      tauto

theorem nodup_keys_bumpCount (j : String × PyVal)
    (acc : List ((String × PyVal) × Nat))
    (h : (acc.map Prod.fst).Nodup) :
    ((bumpCount j acc).map Prod.fst).Nodup := by
  induction acc with
  | nil => simp [bumpCount]
  | cons hd rest ih =>
    obtain ⟨k', c⟩ := hd
    rw [List.map_cons, List.nodup_cons] at h
    by_cases h1 : k' = j
    · have hb : bumpCount j ((k', c) :: rest) = (k', c + 1) :: rest := by
        simp [bumpCount, h1]
      rw [hb, List.map_cons, List.nodup_cons]
      exact ⟨h.1, h.2⟩
    · simp only [bumpCount, if_neg h1]
      rw [List.map_cons, List.nodup_cons]
      constructor
      · intro hcontra
        rcases (keys_bumpCount j k' rest).mp hcontra with h2 | h2
        · exact h.1 h2
        · exact h1 h2
      · exact ih h.2

theorem pos_bumpCount (j : String × PyVal)
    (acc : List ((String × PyVal) × Nat))
    (h : ∀ p ∈ acc, 0 < p.2) :
    ∀ p ∈ bumpCount j acc, 0 < p.2 := by
  induction acc with
  | nil =>
    intro p hp
    simp only [bumpCount, List.mem_singleton] at hp
    rw [hp]
    exact Nat.one_pos
  | cons hd rest ih =>
    obtain ⟨k', c⟩ := hd
    by_cases h1 : k' = j
    · intro p hp
      have hb : bumpCount j ((k', c) :: rest) = (k', c + 1) :: rest := by
        simp [bumpCount, h1]
      rw [hb] at hp
      rcases List.mem_cons.mp hp with rfl | hp2
      · have hc := h (k', c) (List.mem_cons_self _ _)
        simp only at hc ⊢
        omega
      · exact h p (List.mem_cons_of_mem _ hp2)
    · intro p hp
      simp only [bumpCount, if_neg h1] at hp
      rcases List.mem_cons.mp hp with rfl | hp2
      · exact h (k', c) (List.mem_cons_self _ _)
      · exact ih (fun q hq => h q (List.mem_cons_of_mem _ hq)) p hp2

theorem patterns_foldl_invariant (logins : List AdminEventLogRow)
    (acc : List ((String × PyVal) × Nat))
    (h1 : (acc.map Prod.fst).Nodup) (h2 : ∀ p ∈ acc, 0 < p.2) :
    (((logins.foldl (fun a e => bumpCount (loginKey e) a) acc).map
        Prod.fst).Nodup) ∧
    (∀ p ∈ logins.foldl (fun a e => bumpCount (loginKey e) a) acc,
      0 < p.2) := by
  induction logins generalizing acc with
  | nil => exact ⟨h1, h2⟩
  | cons e rest ih =>
    exact ih (bumpCount (loginKey e) acc)
      (nodup_keys_bumpCount (loginKey e) acc h1)
      (pos_bumpCount (loginKey e) acc h2)

theorem countOf_foldl_bump (logins : List AdminEventLogRow)
    (acc : List ((String × PyVal) × Nat)) (k : String × PyVal) :
    countOf (logins.foldl (fun a e => bumpCount (loginKey e) a) acc) k =
      countOf acc k + logins.countP (fun e => decide (loginKey e = k)) := by
  induction logins generalizing acc with
  | nil => simp
  | cons e rest ih =>
    rw [List.foldl_cons, ih (bumpCount (loginKey e) acc), countOf_bumpCount,
      List.countP_cons]
    by_cases h : loginKey e = k <;> simp [h] <;> omega

theorem countOf_eq_of_mem (acc : List ((String × PyVal) × Nat))
    (p : (String × PyVal) × Nat)
    (hnodup : (acc.map Prod.fst).Nodup) (hp : p ∈ acc) :
    countOf acc p.1 = p.2 := by
  induction acc with
  | nil => simp at hp
  | cons hd rest ih =>
    obtain ⟨k', c⟩ := hd
    rw [List.map_cons, List.nodup_cons] at hnodup
    rcases List.mem_cons.mp hp with rfl | hp2
    · simp [countOf]
    · have hk : ¬ (k' = p.1) := by
        intro hcontra
        apply hnodup.1
        rw [hcontra]
        exact List.mem_map.mpr ⟨p, hp2, rfl⟩
      simp only [countOf, if_neg hk]
      exact ih hnodup.2 hp2

theorem countP_key_pred (acc : List ((String × PyVal) × Nat))
    (k0 : String × PyVal) (q : Nat → Bool)
    (hnodup : (acc.map Prod.fst).Nodup)
    (hpos : ∀ p ∈ acc, 0 < p.2) :
    acc.countP (fun p => decide (p.1 = k0) && q p.2) =
      if 0 < countOf acc k0 ∧ q (countOf acc k0) then 1 else 0 := by
  induction acc with
  | nil => simp [countOf]
  | cons hd rest ih =>
    obtain ⟨k', c⟩ := hd
    rw [List.map_cons, List.nodup_cons] at hnodup
    rw [List.countP_cons]
    by_cases hk : k' = k0
    · subst hk
      have hrest0 : rest.countP (fun p => decide (p.1 = k') && q p.2)
          = 0 := by
        rw [List.countP_eq_zero]
        intro p hp hcontra
        rw [Bool.and_eq_true] at hcontra
        apply hnodup.1
        have hmem : p.1 ∈ rest.map Prod.fst := List.mem_map.mpr ⟨p, hp, rfl⟩
        rw [of_decide_eq_true hcontra.1] at hmem
        exact hmem
      have hcof : countOf ((k', c) :: rest) k' = c := by simp [countOf]
      have hcpos : 0 < c := hpos (k', c) (List.mem_cons_self _ _)
      rw [hrest0, hcof]
      by_cases hq : q c = true
      · simp [hq, hcpos]
      · have hq' : q c = false := by
          cases hqq : q c
          · rfl
          · exact absurd hqq hq
        simp [hq', hcpos]
    · have hhead : (decide ((k', c).1 = k0) && q (k', c).2) = false := by
        simp [hk]
      have hcof : countOf ((k', c) :: rest) k0 = countOf rest k0 := by
        simp [countOf, hk]
      rw [hcof]
      simp only [hhead, Bool.false_eq_true, if_false, Nat.add_zero]
      exact ih hnodup.2 (fun p hp => hpos p (List.mem_cons_of_mem _ hp))

/-- The number of FAILED_LOGIN events with status FAILURE whose timestamp
lies inside the lookback window and that group to the pair `(ip, u)` — the
grouping count, written directly from the claim's words. -/
def relevantFailedLoginCount (events : List AdminEventLogRow)
    (now lookback_hours : Int) (ip : String) (u : PyVal) : Nat :=
  (events.filter (fun e =>
    decide (e.event_type = EventType.FAILED_LOGIN) &&
    decide (e.status = EventStatus.FAILURE) &&
    decide (now - lookback_hours * 3600 ≤ e.timestamp) &&
    decide (loginKey e = (ip, u)))).length

theorem relevantFailedLoginCount_eq (events : List AdminEventLogRow)
    (now lookback_hours : Int) (ip : String) (u : PyVal) :
    relevantFailedLoginCount events now lookback_hours ip u =
      (failedLoginRows events (now - lookback_hours * 3600)).countP
        (fun e => decide (loginKey e = (ip, u))) := by
  unfold relevantFailedLoginCount failedLoginRows
  rw [List.countP_filter, ← List.countP_eq_length_filter]
  apply List.countP_congr
  intro e _
  by_cases h1 : e.event_type = EventType.FAILED_LOGIN <;>
    by_cases h2 : e.status = EventStatus.FAILURE <;>
    by_cases h3 : now - lookback_hours * 3600 ≤ e.timestamp <;>
    by_cases h4 : loginKey e = (ip, u) <;>
    simp [h1, h2, h3, h4]

/-- C6: `get_security_alerts` considers exactly the FAILED_LOGIN events
with status FAILURE whose timestamp lies inside the lookback window,
groups them by `(ip_address, username-from-details)`, and returns exactly
one alert — of type `"multiple_failed_logins"`, severity `"high"`, and
`attempts` equal to the group's size — for every group of size at least 5,
and no alert for any group of size below 5. -/
theorem get_security_alerts_spec (events : List AdminEventLogRow)
    (now lookback_hours : Int) (ip : String) (u : PyVal) :
    ((get_security_alerts events now lookback_hours).countP
        (fun a => decide (a.ip_address = ip ∧ a.username = u)) =
      if 5 ≤ relevantFailedLoginCount events now lookback_hours ip u then 1
      else 0) ∧
    (∀ a ∈ get_security_alerts events now lookback_hours,
      a.ip_address = ip → a.username = u →
        a.type = "multiple_failed_logins" ∧ a.severity = "high" ∧
        a.attempts = relevantFailedLoginCount events now lookback_hours ip u ∧
        5 ≤ relevantFailedLoginCount events now lookback_hours ip u) := by
  have hinv := patterns_foldl_invariant
    (failedLoginRows events (now - lookback_hours * 3600)) [] (by simp)
    (by simp)
  have hc2 : countOf
      (failedLoginPatterns
        (failedLoginRows events (now - lookback_hours * 3600))) (ip, u) =
      relevantFailedLoginCount events now lookback_hours ip u := by
    rw [relevantFailedLoginCount_eq]
    have hcof := countOf_foldl_bump
      (failedLoginRows events (now - lookback_hours * 3600)) [] (ip, u)
    exact hcof.trans (Nat.zero_add _)
  constructor
  · have hstep1 : (get_security_alerts events now lookback_hours).countP
        (fun a => decide (a.ip_address = ip ∧ a.username = u)) =
        ((failedLoginPatterns
            (failedLoginRows events (now - lookback_hours * 3600))).filter
          (fun p => decide (5 ≤ p.2))).countP
          (fun p => decide (p.1 = (ip, u))) := by
      simp only [get_security_alerts]
      rw [List.countP_map]
      apply countP_ext
      intro p _
      show decide (p.1.1 = ip ∧ p.1.2 = u) = decide (p.1 = (ip, u))
      have hiff : (p.1.1 = ip ∧ p.1.2 = u) ↔ p.1 = (ip, u) := by
        constructor
        · rintro ⟨ha, hb⟩
          exact Prod.ext_iff.mpr ⟨ha, hb⟩
        · intro h
          exact ⟨congrArg Prod.fst h, congrArg Prod.snd h⟩
      exact decide_eq_decide.mpr hiff
    have hstep3 := countP_key_pred
      (failedLoginPatterns
        (failedLoginRows events (now - lookback_hours * 3600)))
      (ip, u) (fun c => decide (5 ≤ c)) hinv.1 hinv.2
    have htotal := hstep1.trans
      ((List.countP_filter _ _ _).trans hstep3)
    rw [htotal, hc2]
    by_cases h5 : 5 ≤ relevantFailedLoginCount events now lookback_hours ip u
    · rw [if_pos h5, if_pos ⟨by omega, by simp [h5]⟩]
    · rw [if_neg h5, if_neg ?_]
      rintro ⟨_, hd⟩
      rw [decide_eq_true_eq] at hd
      exact h5 hd
  · intro a ha hip hu
    simp only [get_security_alerts] at ha
    rcases List.mem_map.mp ha with ⟨p, hpf, hfa⟩
    rcases List.mem_filter.mp hpf with ⟨hpat, hp5⟩
    have h5 : 5 ≤ p.2 := of_decide_eq_true hp5
    have htype : a.type = "multiple_failed_logins" := by rw [← hfa]
    have hsev : a.severity = "high" := by rw [← hfa]
    have hatt : a.attempts = p.2 := by rw [← hfa]
    have hip' : p.1.1 = ip := by rw [← hip, ← hfa]
    have hu' : p.1.2 = u := by rw [← hu, ← hfa]
    have hkey : p.1 = (ip, u) := Prod.ext_iff.mpr ⟨hip', hu'⟩
    have hc3 : p.2 = countOf
        (failedLoginPatterns
          (failedLoginRows events (now - lookback_hours * 3600))) (ip, u) := by
      rw [← hkey]
      exact (countOf_eq_of_mem _ p hinv.1 hpat).symm
    refine ⟨htype, hsev, ?_, ?_⟩
    · rw [hatt, hc3, hc2]
    · rw [← hc2, ← hc3]
      exact h5

/-- One concrete failed-login event from IP 10.0.0.1 for username
`admin`, inside a 24-hour lookback window ending at time 100000. -/
def wFailedEvent (i : Int) : AdminEventLogRow :=
  { id := i
    timestamp := 20000 + i
    event_type := EventType.FAILED_LOGIN
    status := EventStatus.FAILURE
    user_id := 1
    session_id := "s"
    ip_address := "10.0.0.1"
    user_agent := "ua"
    resource_type := Option.none
    resource_id := Option.none
    details := [("username", PyVal.str "admin")] }

/-- Five failed logins from one IP for one username. -/
def wFailedEvents : List AdminEventLogRow :=
  [wFailedEvent 1, wFailedEvent 2, wFailedEvent 3, wFailedEvent 4,
   wFailedEvent 5]

/-- The alert the scenario expects. -/
def wAlert : SecurityAlert :=
  { type := "multiple_failed_logins"
    severity := "high"
    ip_address := "10.0.0.1"
    username := PyVal.str "admin"
    attempts := 5 }

/-- Witness for C6 at the spec's scenario: five failed logins for
`admin` from IP 10.0.0.1 inside the window yield exactly one
`multiple_failed_logins` alert with `attempts = 5`. -/
theorem get_security_alerts_spec_witness :
    ((get_security_alerts wFailedEvents 100000 24).countP
        (fun a => decide (a.ip_address = "10.0.0.1" ∧
          a.username = PyVal.str "admin")) =
      if 5 ≤ relevantFailedLoginCount wFailedEvents 100000 24 "10.0.0.1"
          (PyVal.str "admin") then 1 else 0) ∧
    (wAlert.type = "multiple_failed_logins" ∧ wAlert.severity = "high" ∧
      wAlert.attempts = relevantFailedLoginCount wFailedEvents 100000 24
        "10.0.0.1" (PyVal.str "admin") ∧
      5 ≤ relevantFailedLoginCount wFailedEvents 100000 24 "10.0.0.1"
        (PyVal.str "admin")) :=
  ⟨(get_security_alerts_spec wFailedEvents 100000 24 "10.0.0.1"
      (PyVal.str "admin")).1,
   (get_security_alerts_spec wFailedEvents 100000 24 "10.0.0.1"
      (PyVal.str "admin")).2 wAlert (by decide) rfl rfl⟩

/-- An event row old enough to fall before a 90-day retention cutoff taken
at time 10000000. -/
def wOldEventRow : AdminEventLogRow :=
  { sampleEventRow with id := 10, timestamp := 1000000 }

/-- An event row newer than the same retention cutoff. -/
def wNewEventRow : AdminEventLogRow :=
  { sampleEventRow with id := 11, timestamp := 9000000 }

/-- An audit row newer than the same retention cutoff. -/
def wAuditRow : AdminAuditLogRow :=
  { id := 1
    event_id := 10
    timestamp := 9000000
    resource_type := "product"
    resource_id := "7"
    action := "update"
    previous_state := []
    new_state := []
    changes := []
    audit_metadata := [] }

/-- Witness for C8 at a concrete store and a 90-day retention. -/
theorem cleanup_old_logs_spec_witness :
    (wOldEventRow ∈
        (cleanup_old_logs [wOldEventRow, wNewEventRow] [wAuditRow]
          10000000 90).1 ↔
      wOldEventRow ∈ [wOldEventRow, wNewEventRow] ∧
        ¬ (wOldEventRow.timestamp < 10000000 - 90 * 86400)) ∧
    (wAuditRow ∈
        (cleanup_old_logs [wOldEventRow, wNewEventRow] [wAuditRow]
          10000000 90).2 ↔
      wAuditRow ∈ [wAuditRow] ∧
        ¬ (wAuditRow.timestamp < 10000000 - 90 * 86400)) :=
  ⟨(cleanup_old_logs_spec [wOldEventRow, wNewEventRow] [wAuditRow]
      10000000 90).1 wOldEventRow,
   (cleanup_old_logs_spec [wOldEventRow, wNewEventRow] [wAuditRow]
      10000000 90).2 wAuditRow⟩
